import Mathlib

/-!
Verification of the configuration / state-persistence layer of hamstall
("config.py"): line-oriented file-editing primitives, the JSON-backed
options database accessors, the lock-file mutex, and the program-name /
extension parser.  Files are modelled as lists of lines (each line without
its trailing newline); the database is modelled by its "options" sub-map
as an association list plus an opaque remainder.
-/

set_option autoImplicit false

namespace Hamstall

/-- Python whitespace characters as recognised by "str.rstrip()" and
"str.split()" with no arguments. -/
def isPySpace (c : Char) : Bool :=
  c = ' ' || c = '\t' || c = '\n' || c = '\r' || c = '\x0b' || c = '\x0c'

/-- "l.rstrip()" on a list of characters: drop trailing whitespace. -/
def pyRstripList (l : List Char) : List Char :=
  (l.reverse.dropWhile isPySpace).reverse

/-- Python "s.rstrip()": strip trailing whitespace. -/
def pyRstrip (s : String) : String :=
  String.mk (pyRstripList s.toList)

/-- Helper for "str.split()": accumulate the current token (reversed). -/
def pySplitAux : List Char → List Char → List String
  | [], acc => if acc.isEmpty then [] else [String.mk acc.reverse]
  | c :: t, acc =>
    if isPySpace c then
      if acc.isEmpty then pySplitAux t [] else String.mk acc.reverse :: pySplitAux t []
    else
      pySplitAux t (c :: acc)

/-- Python "s.split()" with no arguments: split on runs of whitespace,
discarding empty tokens. -/
def pySplit (s : String) : List String :=
  pySplitAux s.toList []

/-- Python substring containment "needle in hay" on strings. -/
def strIn (needle hay : String) : Bool :=
  decide (needle.toList <:+: hay.toList)

/-- The whitespace-split token list of a line, after the "rstrip" the source
performs first ("new_l = l.rstrip(); new_l = new_l.split()"). -/
def tokens (l : String) : List String :=
  pySplit (pyRstrip l)

/-- Search/removal modes of "remove_line" ("word" / "poundword" / "fuzzy"). -/
inductive RMode where
  | word
  | poundword
  | fuzzy
deriving DecidableEq

/-- The test "line in new_l" of "check_line" / "remove_line": exact token
membership in word-like modes, substring containment of the rstripped line
in fuzzy mode. -/
def lineMatches (line : String) (mode : RMode) (l : String) : Bool :=
  match mode with
  | RMode.word => decide (line ∈ tokens l)
  | RMode.poundword => decide (line ∈ tokens l)
  | RMode.fuzzy => strIn line (pyRstrip l)

/-- The test "'#' in new_l" of "remove_line": in word-like modes "new_l" is
the token list, in fuzzy mode it is the rstripped line. -/
def hashIn (mode : RMode) (l : String) : Bool :=
  match mode with
  | RMode.word => decide ("#" ∈ tokens l)
  | RMode.poundword => decide ("#" ∈ tokens l)
  | RMode.fuzzy => strIn "#" (pyRstrip l)

/-- "remove_line(line, file_path, mode)" from config.py, on the file's list
of lines: rebuild the file ("rewrite"), keeping a matching line only when
the mode is "poundword" and the line has no "#"; non-matching lines are
always appended. -/
def remove_line (line : String) (mode : RMode) (openFile : List String) : List String :=
  openFile.foldl
    (fun rewrite l =>
      if lineMatches line mode l then
        if !hashIn mode l && decide (mode = RMode.poundword) then rewrite ++ [l]
        else rewrite
      else rewrite ++ [l])
    []

/-- Search modes of "check_line" ("word" / "fuzzy"). -/
inductive CMode where
  | word
  | fuzzy
deriving DecidableEq

/-- "check_line(line, file_path, mode)" from config.py, on the file's list
of lines: return true on the first line for which "line in new_l" holds. -/
def check_line (line : String) (mode : CMode) (openFile : List String) : Bool :=
  openFile.any (fun l =>
    match mode with
    | CMode.word => decide (line ∈ tokens l)
    | CMode.fuzzy => strIn line (pyRstrip l))

/-- A JSON-serializable scalar stored in the database's "options" map
(Python "None" is "null"). -/
inductive Value where
  | null
  | bool (b : Bool)
  | num (n : Int)
  | str (s : String)
deriving DecidableEq

/-- Python truthiness negation "not v", as applied by the "flip" branch of
"change_config" to the stored value. -/
def pyNot (v : Value) : Bool :=
  match v with
  | Value.null => true
  | Value.bool b => !b
  | Value.num n => decide (n = 0)
  | Value.str s => decide (s = "")

/-- Lookup in a Python-dict-like association list ("m[k]", "KeyError" as
"none"). -/
def lookupKV : List (String × Value) → String → Option Value
  | [], _ => none
  | (k', v') :: t, k => if k' = k then some v' else lookupKV t k

/-- Python dict assignment "m[k] = v" (and the equivalent single-key
"m.update"): replace in place if present, else append. -/
def setKV : List (String × Value) → String → Value → List (String × Value)
  | [], k, v => [(k, v)]
  | (k', v') :: t, k, v => if k' = k then (k, v) :: t else (k', v') :: setKV t k v

/-- The in-memory database "db": its "options" sub-map ("none" when the
"options" key itself is absent) and the remaining top-level entries
("version", "programs"), which the config accessors never touch. -/
structure DB where
  options : Option (List (String × Value))
  rest : List (String × Value)
deriving DecidableEq

/-- Result of "read_config": a returned value, the environment-dependent
result of "get_shell_file()", or "sys.exit" with the given status. -/
inductive ReadResult where
  | val (v : Value)
  | shellFile
  | exit (code : Nat)
deriving DecidableEq

/-- "read_config(key)" from config.py: look the key up under "options";
on "KeyError", "Verbose" and "AutoInstall" default to false, "ShellFile"
falls back to shell auto-detection, and any other key prints a diagnostic
and exits with status 2 (the statuses 1 and 3 are used by "get_db" and
"write_db"). -/
def read_config (key : String) (db : DB) : ReadResult :=
  match db.options with
  | some m =>
    match lookupKV m key with
    | some v => ReadResult.val v
    | none =>
      if key = "Verbose" ∨ key = "AutoInstall" then ReadResult.val (Value.bool false)
      else if key = "ShellFile" then ReadResult.shellFile
      else ReadResult.exit 2
  | none =>
    if key = "Verbose" ∨ key = "AutoInstall" then ReadResult.val (Value.bool false)
    else if key = "ShellFile" then ReadResult.shellFile
    else ReadResult.exit 2

/-- Outcome of "change_config": either a normal return carrying the new
in-memory database, the returned value ("none" is Python's implicit
"return None"), and whether "write_db()" ran during the call; or an
uncaught "KeyError" (raised when "db['options']" itself is absent, since
the handler then re-raises on "db['options'].update"). -/
inductive CCOutcome where
  | ok (db : DB) (ret : Option Value) (wrote : Bool)
  | keyError
deriving DecidableEq

/-- "change_config(key, mode, value)" from config.py.  The "flip" branch
toggles (creating the key as true, all options being implicitly false);
the "change" branch stores "value"; both return from inside the branch,
so the trailing "write_db()" runs only for an unrecognised mode string. -/
def change_config (key mode : String) (value : Value) (db : DB) : CCOutcome :=
  if mode = "flip" then
    match db.options with
    | some m =>
      match lookupKV m key with
      | some v =>
        let nv := Value.bool (pyNot v)
        CCOutcome.ok { db with options := some (setKV m key nv) } (some nv) false
      | none =>
        CCOutcome.ok { db with options := some (setKV m key (Value.bool true)) }
          (some (Value.bool true)) false
    | none => CCOutcome.keyError
  else if mode = "change" then
    match db.options with
    | some m =>
      CCOutcome.ok { db with options := some (setKV m key value) } (some value) false
    | none => CCOutcome.keyError
  else
    CCOutcome.ok db none true

/-- Whether "write_db()" ran during a "change_config" call (a propagated
"KeyError" never reaches it). -/
def ccWrote : CCOutcome → Bool
  | CCOutcome.ok _ _ w => w
  | CCOutcome.keyError => false

/-- "lock()" from config.py: "create('/tmp/hamstall-lock')".  The lock
file's existence is the state. -/
def lock (_s : Bool) : Bool :=
  true

/-- "unlock()" from config.py: "os.remove" the lock file, with
"FileNotFoundError" caught and ignored, so the call never raises. -/
def unlock (s : Bool) : Except String Bool :=
  if s then Except.ok false else Except.ok false

/-- "locked()" from config.py: "exists('/tmp/hamstall-lock')". -/
def locked (s : Bool) : Bool :=
  s

/-- Python "s[-n:]" for positive "n": the last "n" characters, or the whole
string when it is shorter. -/
def lastN (n : Nat) (s : String) : String :=
  String.mk (s.toList.drop (s.toList.length - n))

/-- Python "s.lower()" (ASCII case folding). -/
def strLower (s : String) : String :=
  String.mk (s.toList.map Char.toLower)

/-- "extension(program)" from config.py: recognise ".7z" (returned
lowercased), ".zip" / ".rar" / ".git" (matched case-insensitively,
returned verbatim), else fall back to the last 7 characters. -/
def extension (program : String) : String :=
  if strLower (lastN 3 program) = ".7z" then strLower (lastN 3 program)
  else if strLower (lastN 4 program) ∈ [".zip", ".rar", ".git"] then lastN 4 program
  else lastN 7 program

/-- The characters after the last '/' of a line (the whole line when it
has no '/'). -/
def afterLast (l : List Char) : List Char :=
  (l.reverse.takeWhile (fun c => c ≠ '/')).reverse

/-- One line under "re.sub(r'.*<slash>', '/', program)": within a line the
greedy pattern matches the prefix ending at the line's last '/', replaced
by a single '/'; a line with no '/' is unchanged. -/
def subLine (l : List Char) : List Char :=
  if '/' ∈ l then '/' :: afterLast l else l

/-- Split on the newline character, keeping empty pieces (regex matches
never cross a newline, since '.' does not match it). -/
def splitNL : List Char → List (List Char)
  | [] => [[]]
  | c :: t =>
    if c = '\n' then [] :: splitNL t
    else
      match splitNL t with
      | [] => [[c]]
      | h :: r => (c :: h) :: r

/-- Rejoin the pieces of "splitNL" with newlines. -/
def joinNL : List (List Char) → List Char
  | [] => []
  | [l] => l
  | l :: r => l ++ '\n' :: joinNL r

/-- The substitution "re.sub(r'.*<slash>', '/', program)" performed by
"name": every line's prefix up to its last '/' collapses to '/'. -/
def reSubDirs (program : String) : String :=
  String.mk (joinNL ((splitNL program.toList).map subLine))

/-- Python slice "s[1:stop]" where "stop" may be negative (counted from the
end) and is clamped into range. -/
def pySlice1 (s : String) (stop : Int) : String :=
  let e : Int := if stop < 0 then (s.toList.length : Int) + stop else stop
  String.mk ((s.toList.take e.toNat).drop 1)

/-- "name(program)" from config.py (the spec's "derive_name"): apply the
directory-stripping substitution, then take the slice
"[1 : len - len(extension(program))]". -/
def name (program : String) : String :=
  let pin := reSubDirs program
  pySlice1 pin ((pin.toList.length : Int) - ((extension program).toList.length : Int))

/-- "char_check(name)" from config.py: whether the string contains a space
or a '#'. -/
def char_check (s : String) : Bool :=
  s.toList.contains ' ' || s.toList.contains '#'

example : tokens "foo bar  baz \n" = ["foo", "bar", "baz"] := by decide
example : pyRstrip "hello world \n" = "hello world" := by decide
example : strIn "world" "hello world" = true := by decide
example : strIn "word" "hello world" = false := by decide
example : remove_line "foo" RMode.word ["foo bar", "foobar x", "y"] = ["foobar x", "y"] := by decide
example : remove_line "foo" RMode.poundword ["foo # bar", "foo bar"] = ["foo bar"] := by decide
example : remove_line "world" RMode.fuzzy ["hello world", "none"] = ["none"] := by decide
example : check_line "world" CMode.fuzzy ["hello world"] = true := by decide
example : extension "app.7Z" = ".7z" := by decide
example : extension "my-app.ZIP" = ".ZIP" := by decide
example : extension "randomfile" = "domfile" := by decide
example : name "/a/b/my-app.zip" = "my-app" := by decide
example : name "my-app.zip" = "y-app" := by decide
example : read_config "Verbose" ⟨none, []⟩ = ReadResult.val (Value.bool false) := by decide
example : read_config "Foo" ⟨some [], []⟩ = ReadResult.exit 2 := by decide
example : change_config "k" "change" (Value.str "x") ⟨some [], []⟩ =
    CCOutcome.ok ⟨some [("k", Value.str "x")], []⟩ (some (Value.str "x")) false := by decide
example : change_config "k" "oops" Value.null ⟨some [], []⟩ =
    CCOutcome.ok ⟨some [], []⟩ none true := by decide

/-- Lookup of a key absent from both sub-maps of the database (also when
the "options" key itself is absent): the situation in which "read_config"
raises and handles its "KeyError". -/
def lookupOpt (db : DB) (k : String) : Option Value :=
  match db.options with
  | some m => lookupKV m k
  | none => none

/-- The per-line keep decision "remove_line" makes: a matching line
survives only in "poundword" mode without a "#". -/
def keepB (line : String) (mode : RMode) (l : String) : Bool :=
  if lineMatches line mode l then !hashIn mode l && decide (mode = RMode.poundword)
  else true

theorem foldl_keep_eq_filter (p : String → Bool) (xs acc : List String) :
    xs.foldl (fun r l => if p l then r ++ [l] else r) acc = acc ++ xs.filter p := by
  induction xs generalizing acc with
  | nil => simp
  | cons x t ih =>
    by_cases h : p x <;> simp [List.filter_cons, h, ih]

theorem remove_line_eq_filter (line : String) (mode : RMode) (xs : List String) :
    remove_line line mode xs = xs.filter (keepB line mode) := by
  have hfun :
      (fun (rewrite : List String) l =>
        if lineMatches line mode l then
          if !hashIn mode l && decide (mode = RMode.poundword) then rewrite ++ [l]
          else rewrite
        else rewrite ++ [l]) =
      (fun r l => if keepB line mode l then r ++ [l] else r) := by
    funext r l
    by_cases h : lineMatches line mode l <;> simp [keepB, h]
  rw [remove_line, hfun, foldl_keep_eq_filter]
  rfl

theorem lookupKV_setKV_self (m : List (String × Value)) (k : String) (v : Value) :
    lookupKV (setKV m k v) k = some v := by
  induction m with
  | nil => simp [setKV, lookupKV]
  | cons p t ih =>
    obtain ⟨k', v'⟩ := p
    by_cases h : k' = k <;> simp [setKV, lookupKV, h, ih]

theorem splitNL_no_newline (l : List Char) (h : '\n' ∉ l) : splitNL l = [l] := by
  induction l with
  | nil => rfl
  | cons c t ih =>
    have hc : ¬ c = '\n' := fun e => h (e ▸ List.mem_cons_self c t)
    have ht : '\n' ∉ t := fun m => h (List.mem_cons_of_mem c m)
    simp [splitNL, hc, ih ht]

/-- C5: "remove_line(w, path, 'word')" removes exactly the lines whose
whitespace-split tokens include "w" as an exact token, and no others;
lines containing "w" only as a substring of a larger token are preserved,
and all non-matching lines are kept in their original order. -/
theorem remove_line_word_exact_tokens (w : String) (xs : List String) :
    remove_line w RMode.word xs = xs.filter (fun l => !(decide (w ∈ tokens l))) := by
  rw [remove_line_eq_filter]
  apply List.filter_congr
  intro l _
  by_cases h : w ∈ tokens l <;> simp [keepB, lineMatches, h]

/-- C1 counterexample: in "poundword" mode a line whose tokens contain both
the query and a literal "#" token is DROPPED, not kept: the claim's output
for the file ["foo # bar"] would be ["foo # bar"], but the code empties
the file. -/
theorem remove_line_poundword_claim_false :
    ¬ (remove_line "foo" RMode.poundword ["foo # bar"] = ["foo # bar"]) := by decide

/-- C1 amended: "remove_line(w, path, 'poundword')" drops exactly the lines
whose whitespace-split tokens contain "w" AND also contain a literal "#"
token; a matching line without a "#" token is kept unchanged, as are all
non-matching lines, in their original order (the polarity is the reverse
of the claim's). -/
theorem remove_line_poundword_drops_hash_matches (w : String) (xs : List String) :
    remove_line w RMode.poundword xs =
      xs.filter (fun l => !(decide (w ∈ tokens l) && decide ("#" ∈ tokens l))) := by
  rw [remove_line_eq_filter]
  apply List.filter_congr
  intro l _
  by_cases h : w ∈ tokens l <;>
    by_cases h2 : "#" ∈ tokens l <;>
      simp [keepB, lineMatches, hashIn, h, h2]

/-- C4 counterexample: in "fuzzy" mode a line that contains the query only
as a proper substring is dropped, not preserved: removing "world" from the
file ["hello world"] empties the file instead of leaving it unchanged. -/
theorem remove_line_fuzzy_claim_false :
    ¬ (remove_line "world" RMode.fuzzy ["hello world"] = ["hello world"]) := by decide

/-- C4 amended: "remove_line(q, path, 'fuzzy')" drops exactly the lines
whose trailing-whitespace-trimmed content CONTAINS "q" as a contiguous
substring (Python "q in line"), not only the lines exactly equal to "q";
the others are preserved in order. -/
theorem remove_line_fuzzy_drops_substring_matches (q : String) (xs : List String) :
    remove_line q RMode.fuzzy xs = xs.filter (fun l => !strIn q (pyRstrip l)) := by
  rw [remove_line_eq_filter]
  apply List.filter_congr
  intro l _
  by_cases h : strIn q (pyRstrip l) = true <;> simp_all [keepB, lineMatches]

/-- C3 counterexample: "check_line('world', path, 'fuzzy')" returns true on
the file ["hello world"] although no line's trimmed content equals
"world": the claim's "only if" direction is false. -/
theorem check_line_fuzzy_claim_false :
    check_line "world" CMode.fuzzy ["hello world"] = true ∧
      ¬ (pyRstrip "hello world" = "world") := by decide

/-- C3 amended: "check_line(q, path, 'fuzzy')" returns true iff some line's
trailing-whitespace-trimmed content contains "q" as a contiguous substring
(Python "q in line") — substring matches DO make it return true, exact
full-line equality is not required. -/
theorem check_line_fuzzy_iff_substring (q : String) (xs : List String) :
    check_line q CMode.fuzzy xs = true ↔
      ∃ l ∈ xs, q.toList <:+: (pyRstrip l).toList := by
  simp [check_line, strIn, List.any_eq_true]

/-- C6: on a database whose options map lacks the queried key (including a
database with no options map at all), "read_config" returns false for
"Verbose" and "AutoInstall", and for any key other than "Verbose",
"AutoInstall" and "ShellFile" it prints a diagnostic and exits with the
distinct status 2 instead of returning. -/
theorem read_config_missing_key (db : DB) (k : String) (h : lookupOpt db k = none) :
    ((k = "Verbose" ∨ k = "AutoInstall") → read_config k db = ReadResult.val (Value.bool false)) ∧
      (k ≠ "Verbose" → k ≠ "AutoInstall" → k ≠ "ShellFile" → read_config k db = ReadResult.exit 2) := by
  cases hdb : db.options with
  | none =>
    constructor
    · intro hk
      simp [read_config, hdb, hk]
    · intro h1 h2 h3
      simp [read_config, hdb, h1, h2, h3]
  | some m =>
    have h' : lookupKV m k = none := by
      rw [lookupOpt, hdb] at h
      exact h
    constructor
    · intro hk
      simp [read_config, hdb, h', hk]
    · intro h1 h2 h3
      simp [read_config, hdb, h', h1, h2, h3]

/-- C6 witness: on the empty database, "Verbose" reads as false and the
unknown key "Foo" exits with status 2. -/
theorem read_config_missing_key_witness :
    read_config "Verbose" ⟨none, []⟩ = ReadResult.val (Value.bool false) ∧
      read_config "Foo" ⟨none, []⟩ = ReadResult.exit 2 :=
  ⟨(read_config_missing_key ⟨none, []⟩ "Verbose" rfl).1 (Or.inl rfl),
   (read_config_missing_key ⟨none, []⟩ "Foo" rfl).2 (by decide) (by decide) (by decide)⟩

/-- C7: flipping a key absent from the options map returns true, a
subsequent read of that key returns true, and a second flip of the same
key returns false (neither flip runs "write_db"). -/
theorem change_config_flip_absent (k : String) (m : List (String × Value)) (db : DB)
    (ho : db.options = some m) (hk : lookupKV m k = none) :
    change_config k "flip" Value.null db =
        CCOutcome.ok { db with options := some (setKV m k (Value.bool true)) }
          (some (Value.bool true)) false ∧
      read_config k { db with options := some (setKV m k (Value.bool true)) } =
        ReadResult.val (Value.bool true) ∧
      change_config k "flip" Value.null { db with options := some (setKV m k (Value.bool true)) } =
        CCOutcome.ok { db with options := some (setKV (setKV m k (Value.bool true)) k (Value.bool false)) }
          (some (Value.bool false)) false := by
  refine ⟨?_, ?_, ?_⟩
  · simp [change_config, ho, hk]
  · simp [read_config, lookupKV_setKV_self]
  · simp [change_config, lookupKV_setKV_self, pyNot]

/-- C7 witness: flipping the absent key "AutoInstall" on a database with an
empty options map. -/
theorem change_config_flip_absent_witness :
    change_config "AutoInstall" "flip" Value.null ⟨some [], []⟩ =
        CCOutcome.ok { (⟨some [], []⟩ : DB) with options := some (setKV [] "AutoInstall" (Value.bool true)) }
          (some (Value.bool true)) false ∧
      read_config "AutoInstall" { (⟨some [], []⟩ : DB) with options := some (setKV [] "AutoInstall" (Value.bool true)) } =
        ReadResult.val (Value.bool true) ∧
      change_config "AutoInstall" "flip" Value.null
          { (⟨some [], []⟩ : DB) with options := some (setKV [] "AutoInstall" (Value.bool true)) } =
        CCOutcome.ok
          { (⟨some [], []⟩ : DB) with
            options := some (setKV (setKV [] "AutoInstall" (Value.bool true)) "AutoInstall" (Value.bool false)) }
          (some (Value.bool false)) false :=
  change_config_flip_absent "AutoInstall" [] ⟨some [], []⟩ rfl rfl

/-- C2 counterexample: "change_config('Verbose', 'change', True)" returns
from inside its branch, so "write_db()" never runs during the call — the
database is NOT persisted to disk, contradicting the claim. -/
theorem change_config_change_persists_false :
    ¬ (ccWrote (change_config "Verbose" "change" (Value.bool true) ⟨some [], []⟩) = true) := by
  decide

/-- C2 amended: "change_config(k, 'change', v)" sets options[k] to v and
returns v, and a subsequent read of k returns v from the in-memory
database, but the call does NOT persist the database to disk ("write_db"
is never reached); the "flip" mode does not persist either, so there is no
contrast between the two modes. -/
theorem change_config_change_sets_without_write (k : String) (v : Value)
    (m : List (String × Value)) (db : DB) (ho : db.options = some m) :
    change_config k "change" v db =
        CCOutcome.ok { db with options := some (setKV m k v) } (some v) false ∧
      read_config k { db with options := some (setKV m k v) } = ReadResult.val v ∧
      ccWrote (change_config k "flip" v db) = false := by
  refine ⟨?_, ?_, ?_⟩
  · simp [change_config, ho]
  · simp [read_config, lookupKV_setKV_self]
  · cases hk : lookupKV m k <;> simp [change_config, ccWrote, ho, hk]

/-- C2 amended witness: changing "Verbose" to a string value on a database
with an empty options map. -/
theorem change_config_change_sets_without_write_witness :
    change_config "Verbose" "change" (Value.str "x") ⟨some [], []⟩ =
        CCOutcome.ok { (⟨some [], []⟩ : DB) with options := some (setKV [] "Verbose" (Value.str "x")) }
          (some (Value.str "x")) false ∧
      read_config "Verbose" { (⟨some [], []⟩ : DB) with options := some (setKV [] "Verbose" (Value.str "x")) } =
        ReadResult.val (Value.str "x") ∧
      ccWrote (change_config "Verbose" "flip" (Value.str "x") ⟨some [], []⟩) = false :=
  change_config_change_sets_without_write "Verbose" (Value.str "x") [] ⟨some [], []⟩ rfl

/-- C10: both documented modes of "change_config" return from inside their
branch before the trailing "write_db()" call, so neither "flip" nor
"change" writes the database to disk; any other mode string leaves the
in-memory database unchanged, runs "write_db()", and returns None. -/
theorem change_config_write_only_unknown_mode (k mode : String) (v : Value) (db : DB) :
    ccWrote (change_config k "flip" v db) = false ∧
      ccWrote (change_config k "change" v db) = false ∧
      (mode ≠ "flip" → mode ≠ "change" → change_config k mode v db = CCOutcome.ok db none true) := by
  refine ⟨?_, ?_, ?_⟩
  · cases hdb : db.options with
    | none => simp [change_config, ccWrote, hdb]
    | some m => cases hk : lookupKV m k <;> simp [change_config, ccWrote, hdb, hk]
  · cases hdb : db.options <;> simp [change_config, ccWrote, hdb]
  · intro h1 h2
    simp [change_config, h1, h2]

/-- C10 witness: on a small database, "flip" does not write, and the
unknown mode "oops" writes the unchanged database and returns None. -/
theorem change_config_write_only_unknown_mode_witness :
    ccWrote (change_config "k" "flip" Value.null ⟨some [], []⟩) = false ∧
      change_config "k" "oops" Value.null ⟨some [], []⟩ = CCOutcome.ok ⟨some [], []⟩ none true :=
  ⟨(change_config_write_only_unknown_mode "k" "oops" Value.null ⟨some [], []⟩).1,
   (change_config_write_only_unknown_mode "k" "oops" Value.null ⟨some [], []⟩).2.2
     (by decide) (by decide)⟩

/-- C9: after "lock()" the lock file exists, so "locked()" is true; any
"unlock()" call succeeds (never raises, the "FileNotFoundError" being
caught) and leaves "locked()" false — in particular a second consecutive
"unlock()", i.e. "unlock" on the already-absent state, is not an error. -/
theorem lock_unlock_locked (s : Bool) :
    locked (lock s) = true ∧
      (∀ t : Bool, ∃ t' : Bool, unlock t = Except.ok t' ∧ locked t' = false) ∧
      unlock false = Except.ok false := by
  refine ⟨rfl, ?_, rfl⟩
  intro t
  exact ⟨false, by cases t <;> rfl, rfl⟩

/-- C8 counterexample: on an input with no path separator the substitution
leaves the string unchanged and the slice "[1:...]" then also strips the
FIRST character, so "name('my-app.zip')" is "y-app", not the basename
"my-app" the claim requires for every input path string. -/
theorem name_claim_false : ¬ (name "my-app.zip" = "my-app") := by decide

/-- C8 amended: for an input that contains a path separator '/' (and no
newline), whose basename — the part after the last '/' — is at least as
long as "extension()" of the whole input, "name" returns the basename with
its last "len(extension(input))" characters removed (in particular
"name('/a/b/my-app.zip') = 'my-app'"); for an input without a separator
the first character of the result is additionally lost. -/
theorem name_strips_dir_and_extension (program : String)
    (h1 : '\n' ∉ program.toList) (h2 : '/' ∈ program.toList)
    (h3 : (extension program).toList.length ≤ (afterLast program.toList).length) :
    name program =
      String.mk ((afterLast program.toList).take
        ((afterLast program.toList).length - (extension program).toList.length)) := by
  have hsub : reSubDirs program = String.mk ('/' :: afterLast program.toList) := by
    have h2' : '/' ∈ program.data := h2
    rw [reSubDirs, splitNL_no_newline _ h1]
    simp [joinNL, subLine, h2']
  rw [name, hsub]
  show pySlice1 (String.mk ('/' :: afterLast program.toList)) _ = _
  rw [pySlice1]
  have htl : (String.mk ('/' :: afterLast program.toList)).toList =
      '/' :: afterLast program.toList := rfl
  rw [htl]
  set base := afterLast program.toList with hbase
  set extLen := (extension program).toList.length with hext
  have hlen : ('/' :: base).length = base.length + 1 := by simp
  rw [hlen]
  have hstop : ¬ ((((base.length + 1 : Nat)) : Int) - (extLen : Int) < 0) := by omega
  rw [if_neg hstop]
  have hnat : ((((base.length + 1 : Nat)) : Int) - (extLen : Int)).toNat =
      (base.length - extLen) + 1 := by
    omega
  rw [hnat, List.take_succ_cons, List.drop_one, List.tail_cons]

/-- C8 witness: the claim's own example input "/a/b/my-app.zip". -/
theorem name_strips_dir_and_extension_witness :
    name "/a/b/my-app.zip" =
      String.mk ((afterLast "/a/b/my-app.zip".toList).take
        ((afterLast "/a/b/my-app.zip".toList).length -
          (extension "/a/b/my-app.zip").toList.length)) :=
  name_strips_dir_and_extension "/a/b/my-app.zip" (by decide) (by decide) (by decide)

end Hamstall
